import Mathlib

set_option maxHeartbeats 1000000

namespace NSoap

/-! Shallow embedding of src/nsoap.js: the path analyzer (analyzePath,
getArgumentValue) and the routing executor (route, iterateToEnd,
hasOwnProperty). JavaScript values are modelled by the inductive JSValue;
application functions are defunctionalized into FnCode with the evaluator
evalFn (JSValue cannot hold Lean functions because of positivity).
Promises are modelled as already-settled values: every JS await is the
identity, matching the design notes of the specification. Incremental
sequences (generators) are modelled explicitly by the vgen constructor as
a finite list of yielded elements plus the terminal value attached to
completion. Exceptions thrown by the JS runtime (TypeError on property
access of undefined or null, URIError from decodeURI) are modelled by the
Except layer. -/

mutual

/-- Defunctionalized application functions appearing in object graphs,
argument-resolution sources and handlers. greet is (name) => "Hello, " + name;
constV v ignores its arguments and returns v; keyConst k v returns v when its
first argument is the string k and undefined otherwise. -/
inductive FnCode where
  | greet
  | constV (v : JSValue)
  | keyConst (key : String) (v : JSValue)

/-- A JavaScript value: undefined, null, booleans, numbers (restricted to
integers, which suffices because the dot-split of the path makes fractional
literals unwritable in argument position), strings, functions, plain objects
as ordered own-property lists, and generator objects (vgen yields ret) that
yield the elements of yields and complete with value ret. -/
inductive JSValue where
  | undefined
  | null
  | vbool (b : Bool)
  | vnum (n : Int)
  | vstr (s : String)
  | vfunc (code : FnCode)
  | vobj (props : List (String × JSValue))
  | vgen (yields : List JSValue) (ret : JSValue)

end

/-- Exceptions of the modelled JS runtime. typeError models TypeError from a
property read on undefined or null; uriError models URIError thrown by
decodeURI on a malformed escape; nonTermination marks the one corner where
the modelled program loops forever (iterating a stateless object that carries
its own never-done next method), which a total Lean function cannot express
directly. -/
inductive JSException where
  | typeError (msg : String)
  | uriError
  | nonTermination
deriving DecidableEq

/-- The typeof operator on modelled values (typeof null is "object", as in
JS; generator objects are plain objects to typeof). -/
def typeofJS : JSValue → String
  | .undefined => "undefined"
  | .null => "object"
  | .vbool _ => "boolean"
  | .vnum _ => "number"
  | .vstr _ => "string"
  | .vfunc _ => "function"
  | .vobj _ => "object"
  | .vgen _ _ => "object"

/-- JS truthiness: undefined, null, false, 0 and "" are falsy, everything
else (including every object and function) is truthy. -/
def truthy : JSValue → Bool
  | .undefined => false
  | .null => false
  | .vbool b => b
  | .vnum n => n != 0
  | .vstr s => s != ""
  | _ => true

/-- JS ToString for the values reaching string concatenation in this model
(undefined prints as "undefined", which is what the + operator interpolates). -/
def jsToDisplay : JSValue → String
  | .undefined => "undefined"
  | .null => "null"
  | .vbool b => if b then "true" else "false"
  | .vnum n => toString n
  | .vstr s => s
  | .vfunc _ => "function"
  | .vobj _ => "[object Object]"
  | .vgen _ _ => "[object Generator]"

/-- Evaluator for defunctionalized functions. -/
def evalFn : FnCode → List JSValue → JSValue
  | .greet, args => .vstr ("Hello, " ++ jsToDisplay (args.headD .undefined))
  | .constV v, _ => v
  | .keyConst k v, args =>
      match args.headD .undefined with
      | .vstr s => if s = k then v else .undefined
      | _ => .undefined

/-- Invocation f(...args). Only ever applied after a typeof f === "function"
check in the source, so the non-function fallback is unreachable. -/
def jsApply (f : JSValue) (args : List JSValue) : JSValue :=
  match f with
  | .vfunc c => evalFn c args
  | _ => .undefined

/-- Own-property read on a property list; absent keys read as undefined. -/
def lookupOwn : List (String × JSValue) → String → JSValue
  | [], _ => .undefined
  | p :: ps, k => if p.1 = k then p.2 else lookupOwn ps k

/-- Whether a property list owns the key. -/
def hasKey : List (String × JSValue) → String → Bool
  | [], _ => false
  | p :: ps, k => p.1 == k || hasKey ps k

/-- Property read v[k]. Reading a property of undefined or null throws a
TypeError; the modelled primitives, functions and generator objects expose no
own data properties, so a read on them yields undefined, as a read of an
absent property does in JS. -/
def jsGetProp : JSValue → String → Except JSException JSValue
  | .undefined, k => .error (.typeError ("Cannot read properties of undefined (reading " ++ k ++ ")"))
  | .null, k => .error (.typeError ("Cannot read properties of null (reading " ++ k ++ ")"))
  | .vobj props, k => .ok (lookupOwn props k)
  | _, _ => .ok .undefined

/-- hasOwnProperty from nsoap.js lines 81-83: typeof obj === "object" &&
Object.prototype.hasOwnProperty.call(obj, prop). A non-"object" typeof
short-circuits to false; null has typeof "object" and then the call throws a
TypeError; generator objects own none of the relevant properties. -/
def hasOwnProperty : JSValue → String → Except JSException Bool
  | .null, _ => .error (.typeError "Cannot convert undefined or null to object")
  | .vobj props, prop => .ok (hasKey props prop)
  | .vgen _ _, _ => .ok false
  | _, _ => .ok false

/-- Value of a hexadecimal digit character, if it is one, computed from the
code point (48-57 are the digits, 65-70 and 97-102 the upper and lower hex
letters). -/
def hexDigitVal? (c : Char) : Option Nat :=
  let n := c.toNat
  if 48 ≤ n ∧ n ≤ 57 then some (n - 48)
  else if 65 ≤ n ∧ n ≤ 70 then some (n - 55)
  else if 97 ≤ n ∧ n ≤ 102 then some (n - 87)
  else none

/-- The escape sequences decodeURI preserves: the uriReserved characters plus
the hash sign, per the ECMAScript definition of decodeURI. -/
def uriReservedHash : List Char := [';', '/', '?', ':', '@', '&', '=', '+', '$', ',', '#']

/-- decodeURI, modelled character by character on ASCII input. A percent sign
followed by two hex digits decodes to that character unless the character is
in the reserved set, in which case the escape triple is preserved verbatim; a
malformed escape is a URIError (none). Escapes at or above 0x80 start UTF-8
multibyte sequences, which are outside the model and treated as decode
failures; no claim exercises them. -/
def decodeURIChars : List Char → Option (List Char)
  | [] => some []
  | '%' :: c1 :: c2 :: rest =>
      match hexDigitVal? c1, hexDigitVal? c2 with
      | some h1, some h2 =>
          let code := 16 * h1 + h2
          if 128 ≤ code then none
          else if uriReservedHash.contains (Char.ofNat code) then
            (decodeURIChars rest).map (fun t => '%' :: c1 :: c2 :: t)
          else
            (decodeURIChars rest).map (fun t => Char.ofNat code :: t)
      | _, _ => none
  | '%' :: _ => none
  | c :: rest => (decodeURIChars rest).map (fun t => c :: t)

/-- decodeURI on strings. -/
def decodeURIstr (s : String) : Option String :=
  (decodeURIChars s.toList).map List.asString

/-- String.prototype.split with a one-character separator: JS split of ""
gives [""], of "." gives ["", ""], and so on, which this recursion mirrors. -/
def splitOnChar (c : Char) : List Char → List (List Char)
  | [] => [[]]
  | x :: rest =>
      match splitOnChar c rest with
      | [] => [[]]
      | seg :: segs => if x = c then [] :: seg :: segs else (x :: seg) :: segs

/-- Index of the first occurrence of a character in a character list, or -1. -/
def indexOfCharList (c : Char) : List Char → Int
  | [] => -1
  | x :: rest =>
      if x = c then 0
      else
        let r := indexOfCharList c rest
        if r < 0 then -1 else r + 1

/-- String.prototype.indexOf for a one-character needle: index of the first
occurrence, or -1. -/
def jsIndexOfChar (s : String) (c : Char) : Int :=
  indexOfCharList c s.toList

/-- String.prototype.substring: both indices are clamped to [0, length] and
swapped when start exceeds finish. -/
def jsSubstring (s : String) (start finish : Int) : String :=
  let len : Int := (s.toList.length : Int)
  let a := (max 0 (min start len)).toNat
  let b := (max 0 (min finish len)).toNat
  let lo := min a b
  let hi := max a b
  List.asString ((s.toList.drop lo).take (hi - lo))

/-- String.prototype.trim: strip whitespace from both ends. -/
def jsTrim (s : String) : String :=
  List.asString (((s.toList.dropWhile Char.isWhitespace).reverse.dropWhile Char.isWhitespace).reverse)

/-- First character class of the identifier regex [a-zA-Z_$]. -/
def isIdentStart (c : Char) : Bool := c.isAlpha || c == '_' || c == '$'

/-- Continuation character class [a-zA-Z_$0-9]. -/
def isIdentChar (c : Char) : Bool := isIdentStart c || c.isDigit

/-- identifierRegex.test from nsoap.js line 1: the anchored regex matches a
leading identifier-start character followed by identifier characters. -/
def identifierTest (s : String) : Bool :=
  match s.toList with
  | [] => false
  | c :: cs => isIdentStart c && cs.all isIdentChar

/-- Digits of a decimal numeral, or none when empty or not all digits. -/
def digitsToNat? (cs : List Char) : Option Nat :=
  if cs ≠ [] ∧ cs.all Char.isDigit then
    some (cs.foldl (fun acc c => acc * 10 + (c.toNat - '0'.toNat)) 0)
  else none

/-- ECMAScript StringToNumber (used by both isNaN and unary +), restricted to
optionally signed decimal integer numerals; the empty string converts to 0 as
in JS. Fractional literals cannot reach argument parsing because the dot
would already have split the path segment; exponent, hex and Infinity forms
are outside the model and no claim exercises them. isNaN(a) of the source is
(jsStringToNumber? a).isNone and +a is its value. -/
def jsStringToNumber? (s : String) : Option Int :=
  match s.toList with
  | [] => some 0
  | '+' :: ds => (digitsToNat? ds).map (fun n => (n : Int))
  | '-' :: ds => (digitsToNat? ds).map (fun n => -(n : Int))
  | ds => (digitsToNat? ds).map (fun n => (n : Int))

/-- One rung of getArgumentValue: walk the dicts in order. A function source
is called with the token and its raw result is returned whenever truthy; a
mapping source is consulted by hasOwnProperty (which throws on a null dict)
and wraps the member in a value record; when every source misses, the token
becomes its own string literal. From nsoap.js lines 15-29. -/
def lookupDicts (a : String) : List JSValue → Except JSException JSValue
  | [] => .ok (.vobj [("value", .vstr a)])
  | d :: rest =>
      if typeofJS d = "function" then
        let val := jsApply d [.vstr a]
        if truthy val then .ok val else lookupDicts a rest
      else do
        let owns ← hasOwnProperty d a
        if owns then do
          let v ← jsGetProp d a
          .ok (.vobj [("value", v)])
        else lookupDicts a rest

/-- getArgumentValue from nsoap.js lines 9-32: literal true or false first,
then numeric conversion (the isNaN test), then the identifier regex gating
the dict walk, otherwise the invalid-identifier error record. -/
def getArgumentValue (dicts : List JSValue) (a : String) : Except JSException JSValue :=
  if a = "true" ∨ a = "false" then .ok (.vobj [("value", .vbool (a == "true"))])
  else
    match jsStringToNumber? a with
    | some n => .ok (.vobj [("value", .vnum n)])
    | none =>
        if identifierTest a then lookupDicts a dicts
        else .ok (.vobj [("error", .vstr (a ++ " is not a valid identifier."))])

/-- One analyzed hop of the path: an object access, or a function call whose
args are the Argument records produced by getArgumentValue (arbitrary
JSValues, since a function source returns its raw match). -/
inductive Step where
  | object (identifier : String)
  | function (identifier : String) (args : List JSValue)

/-- The identifier of a step. -/
def Step.identifier : Step → String
  | .object i => i
  | .function i _ => i

/-- Analysis of one dot-separated part, nsoap.js lines 43-58: a part is a
function call when it contains an opening bracket; the identifier is the text
before the first opening bracket, the argument text is the substring between
the first opening bracket and the first closing bracket, split on commas,
trimmed, and resolved by getArgumentValue. -/
def analyzePart (dicts : List JSValue) (part : String) : Except JSException Step :=
  let openingBracket := jsIndexOfChar part '('
  if openingBracket > -1 then
    let closingBracket := jsIndexOfChar part ')'
    let identifier := jsSubstring part 0 openingBracket
    let argsString := jsSubstring part (openingBracket + 1) closingBracket
    let tokens := (splitOnChar ',' argsString.toList).map (fun t => jsTrim (List.asString t))
    do
      let args ← tokens.mapM (getArgumentValue dicts)
      .ok (.function identifier args)
  else .ok (.object part)

/-- The segmentation of nsoap.js line 42: path.indexOf(".") ? path.split(".")
: [path]. The index is truthy exactly when it is nonzero, so a path whose
first dot is at position 0 is kept whole, and a dotless path (index -1) goes
through split, which leaves it whole anyway. -/
def pathParts (path : String) : List String :=
  if jsIndexOfChar path '.' ≠ 0 then (splitOnChar '.' path.toList).map List.asString
  else [path]

/-- analyzePath from nsoap.js lines 39-59: decode with decodeURI (a malformed
escape throws URIError), segment, and analyze each part. -/
def analyzePath (encodedPath : String) (dicts : List JSValue) : Except JSException (List Step) := do
  let path ← match decodeURIstr encodedPath with
    | some p => .ok p
    | none => .error JSException.uriError
  (pathParts path).mapM (analyzePart dicts)

/-- RoutingError from nsoap.js lines 61-66. -/
structure RoutingError where
  message : String
  type : String
deriving DecidableEq

/-- The options object of route: onNextValue models whether the hook is
configured (its invocations are collected in an event list); args, prependArgs
and index mirror the source; modifyHandler is an optional replacement hook. -/
structure Options where
  onNextValue : Bool
  args : List JSValue
  prependArgs : Bool
  modifyHandler : Option (JSValue → String → JSValue)
  index : Option String

/-- The defaults route applies when called with an empty options object. -/
def defaultOptions : Options := ⟨false, [], false, none, none⟩

/-- The drain loop of iterateToEnd on a real generator: every non-final
element is reported to onNextValue (when configured) in order, and the value
attached to completion is the result. -/
def drainYields (onNext : Bool) : List JSValue → JSValue → JSValue × List JSValue
  | [], ret => (ret, [])
  | y :: ys, ret =>
      let r := drainYields onNext ys ret
      (r.1, (if onNext then [y] else []) ++ r.2)

/-- iterateToEnd from nsoap.js lines 91-106 together with __isIterable from
lines 77-79. __isIterable reads gen.next, so a step result of undefined or
null throws a TypeError here; a generator is drained; an object carrying its
own callable next is pulled, and since modelled functions are pure and the
object is stateless, a not-done result repeats forever, marked
nonTermination; every other value is returned unchanged. -/
def iterateToEnd (onNext : Bool) (v : JSValue) : Except JSException (JSValue × List JSValue) :=
  match v with
  | .undefined => .error (.typeError "Cannot read properties of undefined (reading next)")
  | .null => .error (.typeError "Cannot read properties of null (reading next)")
  | .vgen ys ret => .ok (drainYields onNext ys ret)
  | .vobj props =>
      match lookupOwn props "next" with
      | .vfunc c => do
          let r := evalFn c []
          let d ← jsGetProp r "done"
          if truthy d then do
            let w ← jsGetProp r "value"
            .ok (w, [])
          else .error JSException.nonTermination
      | _ => .ok (v, [])
  | _ => .ok (v, [])

/-- The dotted display path accumulation of nsoap.js line 117; the initial
undefined obj and the empty string are both falsy, so the first step assigns
the bare identifier. -/
def extendObj (obj : String) (identifier : String) : String :=
  if obj ≠ "" then obj ++ "." ++ identifier else identifier

/-- The walk loop of route, nsoap.js lines 116-163, as a recursion over the
steps carrying the display path, the current value, and the list of values
passed to onNextValue so far. It returns the final display path, current,
the routing error if one stopped the walk, and the event list. A step first
extends the display path; a defined current is passed to modifyHandler when
configured, then checked for the own property; a function step requires a
callable member (undefined member: NOT_FOUND; other non-callable:
NOT_A_FUNCTION with the dotted path and typeof in the message) and is applied
to the extracted argument values combined with options.args per prependArgs;
an object step invokes a callable member with options.args and uses any other
member directly; both drain through iterateToEnd. An undefined current stops
the walk with no error. -/
def walk (options : Options) : String → JSValue → List JSValue → List Step →
    Except JSException (String × JSValue × Option RoutingError × List JSValue)
  | obj, current, log, [] => .ok (obj, current, none, log)
  | obj, current, log, part :: rest =>
      let obj := extendObj obj part.identifier
      if typeofJS current ≠ "undefined" then
        let current := match options.modifyHandler with
          | some h => h current part.identifier
          | none => current
        do
        let owns ← hasOwnProperty current part.identifier
        if owns then
          match part with
          | .function identifier args => do
              let fn ← jsGetProp current identifier
              if typeofJS fn = "function" then do
                let argVals ← args.mapM (fun a => jsGetProp a "value")
                let callArgs := if options.prependArgs then options.args ++ argVals
                  else argVals ++ options.args
                let stepRes ← iterateToEnd options.onNextValue (jsApply fn callArgs)
                walk options obj stepRes.1 (log ++ stepRes.2) rest
              else if typeofJS fn = "undefined" then
                .ok (obj, current, some ⟨"The requested path was not found.", "NOT_FOUND"⟩, log)
              else
                .ok (obj, current,
                  some ⟨obj ++ " is not a function. Was " ++ typeofJS fn ++ ".", "NOT_A_FUNCTION"⟩, log)
          | .object identifier => do
              let ref ← jsGetProp current identifier
              let res := if typeofJS ref = "function" then jsApply ref options.args else ref
              let stepRes ← iterateToEnd options.onNextValue res
              walk options obj stepRes.1 (log ++ stepRes.2) rest
        else
          .ok (obj, current, some ⟨"The requested path was not found.", "NOT_FOUND"⟩, log)
      else
        .ok (obj, current, none, log)

/-- The outcome of route: a resolved value or a RoutingError instance. -/
inductive RouteOutcome where
  | value (v : JSValue)
  | routingError (e : RoutingError)

/-- The final index resolution of nsoap.js lines 165-178 for the no-error
case: when current owns the property named options.index (an absent index is
the property key "undefined", the JS string coercion of the undefined key),
apply modifyHandler when configured, invoke a callable member with
options.args or take its value, and drain; otherwise current is the result. -/
def finalize (options : Options) (current : JSValue) (log : List JSValue) :
    Except JSException (RouteOutcome × List JSValue) := do
  let indexKey := match options.index with
    | some s => s
    | none => "undefined"
  let owns ← hasOwnProperty current indexKey
  if owns then do
    let current := match options.modifyHandler with
      | some h => h current indexKey
      | none => current
    let member ← jsGetProp current indexKey
    let res := if typeofJS member = "function" then jsApply member options.args else member
    let stepRes ← iterateToEnd options.onNextValue res
    .ok (.value stepRes.1, log ++ stepRes.2)
  else .ok (.value current, log)

/-- route from nsoap.js lines 85-181: resolve a factory root by calling it,
analyze a non-empty expression (an empty one yields zero steps), run the
walk, and return the routing error when one stopped the walk, otherwise the
finalized current. The second component collects the values passed to the
onNextValue hook. -/
def route (_app : JSValue) (expression : String) (dicts : List JSValue) (options : Options) :
    Except JSException (RouteOutcome × List JSValue) := do
  let app := if typeofJS _app = "function" then jsApply _app [] else _app
  let parts ← if expression ≠ "" then analyzePath expression dicts else .ok []
  let r ← walk options "" app [] parts
  let (_, current, err, log) := r
  match err with
  | some e => .ok (.routingError e, log)
  | none => finalize options current log

/-- A source that definitely does not resolve the token a: a function source
whose result is falsy, a mapping that does not own the key, or a non-callable
non-object value that the source walk skips. A null source is never a miss,
because consulting it throws. -/
def dictMisses (d : JSValue) (a : String) : Bool :=
  match d with
  | .vfunc c => !(truthy (evalFn c [.vstr a]))
  | .null => false
  | .vobj props => !(hasKey props a)
  | _ => true

/-! Helper lemmas shared by several claim theorems. -/

theorem bind_ok {α β : Type} (a : α) (f : α → Except JSException β) :
    (Except.ok a >>= f) = f a := rfl

theorem hasOwn_nonobject {v : JSValue} (k : String) (h : typeofJS v ≠ "object") :
    hasOwnProperty v k = .ok false := by
  cases v <;> simp [typeofJS] at h ⊢ <;> simp [hasOwnProperty]

theorem hasKey_of_lookupOwn_ne {props : List (String × JSValue)} {k : String}
    (h : lookupOwn props k ≠ .undefined) : hasKey props k = true := by
  induction props with
  | nil => simp [lookupOwn] at h
  | cons p ps ih =>
      by_cases hk : p.1 = k
      · simp [hasKey, hk]
      · simp only [lookupOwn, if_neg hk] at h
        simp [hasKey, ih h]

theorem asString_toList (s : String) : List.asString s.toList = s := by
  cases s
  rfl

theorem splitOnChar_not_mem {c : Char} {l : List Char} (h : c ∉ l) :
    splitOnChar c l = [l] := by
  induction l with
  | nil => rfl
  | cons x xs ih =>
      have hx : x ≠ c := fun e => h (e ▸ List.mem_cons_self x xs)
      have hxs : c ∉ xs := fun e => h (List.mem_cons_of_mem x e)
      simp [splitOnChar, ih hxs, if_neg hx]

theorem indexOfCharList_not_mem {c : Char} {l : List Char} (h : c ∉ l) :
    indexOfCharList c l = -1 := by
  induction l with
  | nil => rfl
  | cons x xs ih =>
      have hx : x ≠ c := fun e => h (e ▸ List.mem_cons_self x xs)
      have hxs : c ∉ xs := fun e => h (List.mem_cons_of_mem x e)
      simp [indexOfCharList, if_neg hx, ih hxs]

theorem indexOfCharList_cons_ne_zero {c x : Char} {xs : List Char} (h : x ≠ c) :
    indexOfCharList c (x :: xs) ≠ 0 := by
  simp only [indexOfCharList, if_neg h]
  by_cases hr : indexOfCharList c xs < 0
  · simp [hr]
  · simp only [if_neg hr]
    omega

theorem walk_stops_not_found (options : Options) (obj : String) (current : JSValue)
    (log : List JSValue) (part : Step) (rest : List Step)
    (hmod : options.modifyHandler = none) (hcur : typeofJS current ≠ "undefined")
    (howns : hasOwnProperty current part.identifier = .ok false) :
    walk options obj current log (part :: rest) =
      .ok (extendObj obj part.identifier, current,
        some ⟨"The requested path was not found.", "NOT_FOUND"⟩, log) := by
  simp only [walk, if_pos hcur, hmod, howns, bind_ok]
  rfl

theorem lookupDicts_all_miss (a : String) :
    ∀ dicts : List JSValue, (∀ d ∈ dicts, dictMisses d a = true) →
      lookupDicts a dicts = .ok (.vobj [("value", .vstr a)]) := by
  intro dicts
  induction dicts with
  | nil => intro _; rfl
  | cons d ds ih =>
      intro h
      have hd : dictMisses d a = true := h d (List.mem_cons_self d ds)
      have hds : ∀ x ∈ ds, dictMisses x a = true := fun x hx => h x (List.mem_cons_of_mem d hx)
      cases d with
      | vfunc c =>
          simp only [dictMisses, Bool.not_eq_true'] at hd
          simp [lookupDicts, typeofJS, jsApply, hd, ih hds]
      | null => simp [dictMisses] at hd
      | vobj props =>
          simp only [dictMisses, Bool.not_eq_true'] at hd
          simp [lookupDicts, typeofJS, hasOwnProperty, hd, bind_ok, ih hds]
      | vgen ys r => simp [lookupDicts, typeofJS, hasOwnProperty, bind_ok, ih hds]
      | undefined => simp [lookupDicts, typeofJS, hasOwnProperty, bind_ok, ih hds]
      | vbool b => simp [lookupDicts, typeofJS, hasOwnProperty, bind_ok, ih hds]
      | vnum n => simp [lookupDicts, typeofJS, hasOwnProperty, bind_ok, ih hds]
      | vstr s => simp [lookupDicts, typeofJS, hasOwnProperty, bind_ok, ih hds]

/-! Claim theorems. -/

/-- C1: the claim says route never throws or rejects during the walk,
whatever values the member reads produce. It does reject: an object step
whose own member holds the value undefined makes iterateToEnd read next off
undefined, a TypeError, so route, applied to the root with own property a of
value undefined and the expression a, rejects instead of completing. -/
theorem c1_route_rejects_on_undefined_member_value :
    route (.vobj [("a", .undefined)]) "a" [] defaultOptions =
      .error (.typeError "Cannot read properties of undefined (reading next)") := rfl

/-- C2: the claim says an own member whose value is undefined stops the walk
silently, while an absent member is a NOT_FOUND error. The second half holds,
but the first crashes: on the root with own property p of value undefined and
the expression p.q, the walk throws a TypeError reading next off undefined
instead of stopping silently; on the empty root the same expression is the
claimed NOT_FOUND routing error. -/
theorem c2_undefined_member_crashes_instead_of_silent_stop :
    route (.vobj [("p", .undefined)]) "p.q" [] defaultOptions =
      .error (.typeError "Cannot read properties of undefined (reading next)") ∧
    route (.vobj []) "p.q" [] defaultOptions =
      .ok (.routingError ⟨"The requested path was not found.", "NOT_FOUND"⟩, []) :=
  ⟨rfl, rfl⟩

/-- C3 counterexample: routing the expression greet("World"), with the quote
characters of the claim, against the root with the greet handler returns
"Hello, undefined", not "Hello, World": the quoted token fails the identifier
regex, becomes an error record with no value member, and the handler is
invoked with undefined. -/
theorem c3_quoted_argument_counterexample :
    route (.vobj [("greet", .vfunc .greet)]) "greet(\"World\")" [] defaultOptions =
      .ok (.value (.vstr "Hello, undefined"), []) ∧
    "Hello, undefined" ≠ "Hello, World" :=
  ⟨rfl, by decide⟩

/-- C3 amended: the unquoted expression greet(World) resolves the bare
identifier World to its own string literal and returns "Hello, World". -/
theorem c3_amended_bare_identifier_greet :
    route (.vobj [("greet", .vfunc .greet)]) "greet(World)" [] defaultOptions =
      .ok (.value (.vstr "Hello, World"), []) := rfl

/-- C4 counterexample: the escape %2C for the reserved character comma is not
decoded before splitting; the path a%2Cb analyzes to the single object step
a%2Cb, not to a step for a,b. -/
theorem c4_reserved_escape_counterexample :
    analyzePath "a%2Cb" [] = .ok [.object "a%2Cb"] ∧ "a%2Cb" ≠ "a,b" :=
  ⟨rfl, by decide⟩

/-- C4 amended: decoding follows decodeURI, not decodeURIComponent: an ASCII
escape of two hex digits is decoded to its character unless that character is
in the reserved set of decodeURI (; / ? : @ & = + $ , #), whose escapes are
preserved verbatim. -/
theorem c4_amended_decodeURI_semantics (c1 c2 : Char) (v1 v2 : Nat)
    (h1 : hexDigitVal? c1 = some v1) (h2 : hexDigitVal? c2 = some v2)
    (h3 : 16 * v1 + v2 < 128) :
    decodeURIChars ['%', c1, c2] =
      some (if uriReservedHash.contains (Char.ofNat (16 * v1 + v2)) then ['%', c1, c2]
        else [Char.ofNat (16 * v1 + v2)]) := by
  simp only [decodeURIChars, h1, h2]
  rw [if_neg (by omega)]
  split <;> simp [decodeURIChars]

/-- C4 amended, witness: the escape %2C (comma, reserved) is preserved. -/
theorem c4_amended_witness :
    hexDigitVal? '2' = some 2 ∧ hexDigitVal? 'C' = some 12 ∧
    decodeURIChars ['%', '2', 'C'] = some ['%', '2', 'C'] :=
  ⟨rfl, rfl, by
    rw [c4_amended_decodeURI_semantics '2' 'C' 2 12 rfl rfl (by norm_num)]
    rfl⟩

/-- C5 counterexample: the path .a.b, whose first dot is at position 0, is
kept as one single step, although splitting on dots would give three
segments; the claim that every decoded path is split into one step per
dot-separated segment fails there. -/
theorem c5_leading_dot_counterexample :
    analyzePath ".a.b" [] = .ok [.object ".a.b"] ∧
    (splitOnChar '.' ".a.b".toList).length = 3 :=
  ⟨rfl, rfl⟩

/-- C5 amended: a path whose first character is not a dot is split on dots
into one part per segment in order, and in particular a non-empty dotless
path is one whole-string part; but a path beginning with a dot (indexOf
returning the falsy 0) is kept whole as a single part; an empty expression
produces zero steps in route. -/
theorem c5_amended_segmentation :
    (∀ path : String, path ≠ "" → '.' ∉ path.toList → pathParts path = [path]) ∧
    (∀ path : String, path.toList.head? ≠ some '.' →
      pathParts path = (splitOnChar '.' path.toList).map List.asString) ∧
    (∀ path : String, path.toList.head? = some '.' → pathParts path = [path]) ∧
    route (.vobj [("k", .vnum 7)]) "" [] defaultOptions =
      .ok (.value (.vobj [("k", .vnum 7)]), []) := by
  refine ⟨?_, ?_, ?_, rfl⟩
  · intro path _ hnm
    have hidx : jsIndexOfChar path '.' = -1 := indexOfCharList_not_mem hnm
    rw [pathParts, if_pos (by rw [hidx]; decide)]
    rw [splitOnChar_not_mem hnm]
    simp only [List.map_cons, List.map_nil]
    rw [asString_toList]
  · intro path hhead
    rw [pathParts, if_pos ?_]
    rw [jsIndexOfChar]
    cases h : path.toList with
    | nil => decide
    | cons x xs =>
        have hx : x ≠ '.' := by
          intro e
          rw [h, e] at hhead
          simp at hhead
        exact indexOfCharList_cons_ne_zero hx
  · intro path hhead
    rw [pathParts, if_neg ?_]
    rw [jsIndexOfChar]
    cases h : path.toList with
    | nil => rw [h] at hhead; simp at hhead
    | cons x xs =>
        have hx : x = '.' := by
          rw [h] at hhead
          simpa using hhead
        simp [indexOfCharList, hx]

/-- C5 amended, witness: the dotless path foo(1,2) is one whole part, and the
path a.b not starting with a dot splits into its two segments. -/
theorem c5_amended_witness :
    pathParts "foo(1,2)" = ["foo(1,2)"] ∧ pathParts "a.b" = ["a", "b"] := by
  constructor
  · exact c5_amended_segmentation.1 "foo(1,2)" (by decide) (by decide)
  · rw [c5_amended_segmentation.2.1 "a.b" (by decide)]
    rfl

/-- C6 counterexample: with the resolver function source answering the bare
token x with the truthy number 42, the function step is not invoked with 42:
the raw match becomes the Argument record itself, route reads its value
member, undefined, and greet(x) returns "Hello, undefined", whereas invoking
greet with 42 returns "Hello, 42". -/
theorem c6_raw_resolver_match_counterexample :
    route (.vobj [("greet", .vfunc .greet)]) "greet(x)"
      [.vfunc (.keyConst "x" (.vnum 42))] defaultOptions =
      .ok (.value (.vstr "Hello, undefined"), []) ∧
    evalFn .greet [.vnum 42] = .vstr "Hello, 42" :=
  ⟨rfl, rfl⟩

/-- C6 amended: when the first source is a function returning a truthy v for
the token, the whole of v becomes the Argument record (it is not wrapped in a
value record), so the invocation receives the value member of v; a resolver
that returns a record with a value member, as the second conjunct shows end
to end, gets that member passed to the function step. -/
theorem c6_amended_resolver_argument :
    (∀ (c : FnCode) (rest : List JSValue) (a : String) (v : JSValue),
      a ≠ "true" → a ≠ "false" → jsStringToNumber? a = none → identifierTest a = true →
      evalFn c [.vstr a] = v → truthy v = true →
      getArgumentValue (.vfunc c :: rest) a = .ok v) ∧
    route (.vobj [("greet", .vfunc .greet)]) "greet(x)"
      [.vfunc (.keyConst "x" (.vobj [("value", .vstr "Bob")]))] defaultOptions =
      .ok (.value (.vstr "Hello, Bob"), []) := by
  refine ⟨?_, rfl⟩
  intro c rest a v h1 h2 hnum hid hev htr
  rw [getArgumentValue, if_neg (by
    intro h
    cases h with
    | inl h => exact h1 h
    | inr h => exact h2 h)]
  rw [hnum]
  simp only [hid, if_pos]
  simp [lookupDicts, typeofJS, jsApply, hev, htr]

/-- C6 amended, witness: a resolver returning a record with a value member
resolves the token x to that whole record. -/
theorem c6_amended_witness :
    getArgumentValue [.vfunc (.keyConst "x" (.vobj [("value", .vstr "Bob")]))] "x" =
      .ok (.vobj [("value", .vstr "Bob")]) :=
  c6_amended_resolver_argument.1 _ [] "x" _ (by decide) (by decide) rfl (by decide) rfl rfl

/-- C7: the resolution precedence of getArgumentValue: the tokens true and
false become booleans for every list of sources, including sources defining
same-named entries; a numeric-parseable token becomes its parsed number for
every list of sources, never a lookup; with the sources x mapped to 1 then x
mapped to 2, the bare token x resolves to 1; a syntactically valid identifier
that every source misses becomes its own string literal. -/
theorem c7_argument_resolution_precedence :
    (∀ dicts : List JSValue,
      getArgumentValue dicts "true" = .ok (.vobj [("value", .vbool true)]) ∧
      getArgumentValue dicts "false" = .ok (.vobj [("value", .vbool false)])) ∧
    (∀ (dicts : List JSValue) (a : String) (n : Int), a ≠ "true" → a ≠ "false" →
      jsStringToNumber? a = some n →
      getArgumentValue dicts a = .ok (.vobj [("value", .vnum n)])) ∧
    getArgumentValue [.vobj [("x", .vnum 1)], .vobj [("x", .vnum 2)]] "x" =
      .ok (.vobj [("value", .vnum 1)]) ∧
    (∀ (dicts : List JSValue) (a : String), a ≠ "true" → a ≠ "false" →
      jsStringToNumber? a = none → identifierTest a = true →
      (∀ d ∈ dicts, dictMisses d a = true) →
      getArgumentValue dicts a = .ok (.vobj [("value", .vstr a)])) := by
  refine ⟨fun dicts => ⟨rfl, rfl⟩, ?_, rfl, ?_⟩
  · intro dicts a n h1 h2 hnum
    rw [getArgumentValue, if_neg (by
      intro h
      cases h with
      | inl h => exact h1 h
      | inr h => exact h2 h)]
    rw [hnum]
  · intro dicts a h1 h2 hnum hid hmiss
    rw [getArgumentValue, if_neg (by
      intro h
      cases h with
      | inl h => exact h1 h
      | inr h => exact h2 h)]
    rw [hnum]
    simp only [hid, if_pos]
    exact lookupDicts_all_miss a dicts hmiss

/-- C7 witness: the numeric token 12 parses to the number 12 even with a
source defining it, and the identifier y missed by a mapping source becomes
the string literal y. -/
theorem c7_witness :
    getArgumentValue [.vobj [("12", .vnum 99)]] "12" = .ok (.vobj [("value", .vnum 12)]) ∧
    getArgumentValue [.vobj [("x", .vnum 1)]] "y" = .ok (.vobj [("value", .vstr "y")]) := by
  constructor
  · exact c7_argument_resolution_precedence.2.1 _ "12" 12 (by decide) (by decide) rfl
  · exact c7_argument_resolution_precedence.2.2.2 _ "y" (by decide) (by decide) rfl (by decide)
      (by intro d hd; simp at hd; rw [hd]; rfl)

/-- C8 counterexample: on the root whose own property f holds the value
undefined, the function step f() yields NOT_FOUND, although the member
exists as an own property and is not callable, where the claim requires
NOT_A_FUNCTION for every existing non-callable member. -/
theorem c8_undefined_member_function_step_counterexample :
    route (.vobj [("f", .undefined)]) "f()" [] defaultOptions =
      .ok (.routingError ⟨"The requested path was not found.", "NOT_FOUND"⟩, []) ∧
    hasOwnProperty (.vobj [("f", .undefined)]) "f" = .ok true :=
  ⟨rfl, rfl⟩

/-- C8 amended: a missing own member stops the walk at once with NOT_FOUND
whatever steps remain; a function step whose own member is defined but not
callable stops with NOT_A_FUNCTION whose message is the accumulated dotted
path followed by the typeof of the member; a function step whose own member
holds the value undefined also stops with NOT_FOUND; and the error a walk
stops with is the result of route. -/
theorem c8_amended_error_taxonomy :
    (∀ (options : Options) (obj : String) (current : JSValue) (log : List JSValue)
        (part : Step) (rest : List Step),
      options.modifyHandler = none → typeofJS current ≠ "undefined" →
      hasOwnProperty current part.identifier = .ok false →
      walk options obj current log (part :: rest) =
        .ok (extendObj obj part.identifier, current,
          some ⟨"The requested path was not found.", "NOT_FOUND"⟩, log)) ∧
    (∀ (options : Options) (obj : String) (current : JSValue) (log : List JSValue)
        (identifier : String) (args : List JSValue) (rest : List Step) (fn : JSValue),
      options.modifyHandler = none → typeofJS current ≠ "undefined" →
      hasOwnProperty current identifier = .ok true →
      jsGetProp current identifier = .ok fn →
      typeofJS fn ≠ "function" → typeofJS fn ≠ "undefined" →
      walk options obj current log (.function identifier args :: rest) =
        .ok (extendObj obj identifier, current,
          some ⟨extendObj obj identifier ++ " is not a function. Was " ++ typeofJS fn ++ ".",
            "NOT_A_FUNCTION"⟩, log)) ∧
    (∀ (options : Options) (obj : String) (current : JSValue) (log : List JSValue)
        (identifier : String) (args : List JSValue) (rest : List Step),
      options.modifyHandler = none → typeofJS current ≠ "undefined" →
      hasOwnProperty current identifier = .ok true →
      jsGetProp current identifier = .ok .undefined →
      walk options obj current log (.function identifier args :: rest) =
        .ok (extendObj obj identifier, current,
          some ⟨"The requested path was not found.", "NOT_FOUND"⟩, log)) ∧
    (∀ (_app : JSValue) (expr : String) (dicts : List JSValue) (options : Options)
        (parts : List Step) (o : String) (c : JSValue) (e : RoutingError) (log : List JSValue),
      typeofJS _app ≠ "function" → expr ≠ "" →
      analyzePath expr dicts = .ok parts →
      walk options "" _app [] parts = .ok (o, c, some e, log) →
      route _app expr dicts options = .ok (.routingError e, log)) := by
  refine ⟨fun o ob cur lg p r => walk_stops_not_found o ob cur lg p r, ?_, ?_, ?_⟩
  · intro options obj current log identifier args rest fn hmod hcur howns hfn hnf hnu
    simp only [walk, if_pos hcur, hmod, howns, bind_ok, Step.identifier]
    rw [hfn]
    simp only [bind_ok]
    rw [if_neg hnf, if_neg hnu]
    rfl
  · intro options obj current log identifier args rest hmod hcur howns hfn
    simp only [walk, if_pos hcur, hmod, howns, bind_ok, Step.identifier]
    rw [hfn]
    simp only [bind_ok]
    rfl
  · intro _app expr dicts options parts o c e log hfac hexpr hana hwalk
    simp only [route, if_neg hfac, if_pos hexpr, hana, bind_ok, hwalk]

/-- C8 amended, witness: a missing member m on an empty root is NOT_FOUND, a
boolean member f invoked as a function is NOT_A_FUNCTION with the dotted path
and typeof in the message, an own member holding undefined invoked as a
function is NOT_FOUND, and route surfaces the walk error. -/
theorem c8_amended_witness :
    walk defaultOptions "" (.vobj []) [] [.object "m"] =
      .ok ("m", .vobj [], some ⟨"The requested path was not found.", "NOT_FOUND"⟩, []) ∧
    walk defaultOptions "a" (.vobj [("f", .vbool true)]) [] [.function "f" []] =
      .ok ("a.f", .vobj [("f", .vbool true)],
        some ⟨"a.f is not a function. Was boolean.", "NOT_A_FUNCTION"⟩, []) ∧
    walk defaultOptions "" (.vobj [("f", .undefined)]) [] [.function "f" [], .object "z"] =
      .ok ("f", .vobj [("f", .undefined)],
        some ⟨"The requested path was not found.", "NOT_FOUND"⟩, []) ∧
    route (.vobj []) "m" [] defaultOptions =
      .ok (.routingError ⟨"The requested path was not found.", "NOT_FOUND"⟩, []) := by
  refine ⟨?_, ?_, ?_, ?_⟩
  · exact c8_amended_error_taxonomy.1 defaultOptions "" (.vobj []) [] (.object "m") []
      rfl (by decide) rfl
  · exact c8_amended_error_taxonomy.2.1 defaultOptions "a" (.vobj [("f", .vbool true)]) []
      "f" [] [] (.vbool true) rfl (by decide) rfl rfl (by decide) (by decide)
  · exact c8_amended_error_taxonomy.2.2.1 defaultOptions "" (.vobj [("f", .undefined)]) []
      "f" [] [.object "z"] rfl (by decide) rfl rfl
  · exact c8_amended_error_taxonomy.2.2.2 (.vobj []) "m" [] defaultOptions [.object "m"]
      "m" (.vobj []) ⟨"The requested path was not found.", "NOT_FOUND"⟩ []
      (by decide) (by decide) rfl rfl

/-- C9: draining an incremental result: a generator yielding a then b and
completing with v reports exactly a then b, in order, to the onNextValue
hook, never the terminal value, and the drain result is v; and a function
step whose invocation returns such a generator continues the walk with v as
the new current value, the hook events appended in order. -/
theorem c9_generator_draining :
    (∀ a b v : JSValue, iterateToEnd true (.vgen [a, b] v) = .ok (v, [a, b])) ∧
    (∀ (options : Options) (obj : String) (props : List (String × JSValue)) (id : String)
        (log : List JSValue) (rest : List Step) (args : List JSValue) (c : FnCode)
        (argVals : List JSValue) (a b v : JSValue),
      options.onNextValue = true → options.modifyHandler = none →
      lookupOwn props id = .vfunc c →
      args.mapM (fun x => jsGetProp x "value") = .ok argVals →
      evalFn c (if options.prependArgs then options.args ++ argVals
        else argVals ++ options.args) = .vgen [a, b] v →
      walk options obj (.vobj props) log (.function id args :: rest) =
        walk options (extendObj obj id) v (log ++ [a, b]) rest) := by
  constructor
  · intro a b v
    simp [iterateToEnd, drainYields]
  · intro options obj props id log rest args c argVals a b v hNext hmod hlook hmap hev
    have hkey : hasKey props id = true :=
      hasKey_of_lookupOwn_ne (by rw [hlook]; intro h; cases h)
    have howns : hasOwnProperty (.vobj props) id = .ok true := by
      simp [hasOwnProperty, hkey]
    simp only [walk, hmod, Step.identifier]
    rw [if_pos (by simp [typeofJS])]
    rw [howns]
    simp only [bind_ok, if_pos]
    have hget : jsGetProp (.vobj props) id = .ok (.vfunc c) := by
      simp [jsGetProp, hlook]
    rw [hget]
    simp only [bind_ok]
    rw [if_pos (by simp [typeofJS])]
    rw [hmap]
    simp only [bind_ok]
    simp only [jsApply]
    rw [hev, hNext]
    simp [iterateToEnd, drainYields, bind_ok]

/-- C9 witness: a function step returning the generator yielding 1 then 2 and
completing with 3 reports exactly 1 then 2 to the hook and continues with 3. -/
theorem c9_witness :
    walk ⟨true, [], false, none, none⟩ ""
      (.vobj [("f", .vfunc (.constV (.vgen [.vnum 1, .vnum 2] (.vnum 3))))]) []
      [.function "f" []] =
      .ok ("f", .vnum 3, none, [.vnum 1, .vnum 2]) := by
  rw [c9_generator_draining.2 ⟨true, [], false, none, none⟩ ""
    [("f", .vfunc (.constV (.vgen [.vnum 1, .vnum 2] (.vnum 3))))] "f" [] [] []
    (.constV (.vgen [.vnum 1, .vnum 2] (.vnum 3))) [] (.vnum 1) (.vnum 2) (.vnum 3)
    rfl rfl rfl rfl rfl]
  rfl

/-- C10 counterexample: a step whose current value is undefined, a non-object
to typeof, does not resolve to a NOT_FOUND routing error: routing x against
the root undefined completes silently with the value undefined, so the claim
that every non-object current turns each step into NOT_FOUND fails. -/
theorem c10_undefined_root_counterexample :
    route .undefined "x" [] defaultOptions = .ok (.value .undefined, []) ∧
    typeofJS .undefined ≠ "object" :=
  ⟨rfl, by decide⟩

/-- C10 amended: for every defined current whose typeof is not object
(function, string, number, boolean), every step, of either kind and whatever
its identifier, stops the walk with NOT_FOUND, because the own-property check
is gated on typeof; and the final index fallback is never applied to such a
value, the result being current itself; an undefined current instead stops
the walk silently with no error. -/
theorem c10_amended_nonobject_current :
    (∀ (options : Options) (obj : String) (current : JSValue) (log : List JSValue)
        (part : Step) (rest : List Step),
      options.modifyHandler = none → typeofJS current ≠ "object" →
      typeofJS current ≠ "undefined" →
      walk options obj current log (part :: rest) =
        .ok (extendObj obj part.identifier, current,
          some ⟨"The requested path was not found.", "NOT_FOUND"⟩, log)) ∧
    (∀ (options : Options) (current : JSValue) (log : List JSValue),
      typeofJS current ≠ "object" →
      finalize options current log = .ok (.value current, log)) := by
  constructor
  · intro options obj current log part rest hmod hobj hcur
    exact walk_stops_not_found options obj current log part rest hmod hcur
      (hasOwn_nonobject part.identifier hobj)
  · intro options current log hobj
    simp only [finalize]
    rw [hasOwn_nonobject _ hobj]
    rfl

/-- C10 amended, witness: the string current abc turns the step for length,
an own property of strings in JS, into NOT_FOUND, and the index fallback is
not applied to a function current. -/
theorem c10_amended_witness :
    walk defaultOptions "" (.vstr "abc") [] [.object "length"] =
      .ok ("length", .vstr "abc",
        some ⟨"The requested path was not found.", "NOT_FOUND"⟩, []) ∧
    finalize defaultOptions (.vfunc .greet) [] = .ok (.value (.vfunc .greet), []) := by
  constructor
  · exact c10_amended_nonobject_current.1 defaultOptions "" (.vstr "abc") []
      (.object "length") [] rfl (by decide) (by decide)
  · exact c10_amended_nonobject_current.2 defaultOptions (.vfunc .greet) [] (by decide)

end NSoap
